import Mathlib

/-!
Shallow embedding of `src/model/model.py` from the people_detection
repository: a batch video-annotation script.  External collaborators
(cv2 video capture/writer, the YOLO detector, the drawing primitives)
are modelled as explicit data: a capture is a record carrying the
stream properties and the list of frames it will yield; the detector
is a function from a frame to the parallel box/conf/cls sequences of
`results[0].boxes`; the drawing primitives are fields of a `DrawOps`
record over an abstract `Frame` type.  Float tensor values are
modelled as rationals; Python `int()` is truncation toward zero.
Console prints and resource open and release calls are recorded as an
event trace; an unhandled Python exception (the `KeyError` of
`classes[int(cls_id)]`) is the `Except.error` case.
-/

/-- Python errors the script can raise and does not catch.  Only the
class-table lookup `classes[int(cls_id)]` can fail in the embedded
fragment. -/
inductive PyError where
  | keyError : Int → PyError
deriving DecidableEq, Repr

/-- Python `int()` applied to a numeric value: truncation toward zero.
Both operands of the division are nonnegative, so integer division
here is plain floor division of naturals embedded in `Int`. -/
def pyInt (q : ℚ) : Int :=
  if 0 ≤ q.num then q.num / (q.den : Int) else -((-q.num) / (q.den : Int))

/-- Round a rational to the nearest multiple of 1/100, ties to even,
returning the number of hundredths.  Models Python `format(x, ".2f")`
rounding (the binary-float representation of the confidence tensor is
abstracted as an exact rational).  `n` and `r` are the floor quotient
and remainder of `100 * q`; the fraction `r / den` is compared with
1/2 by cross-multiplying. -/
def round2 (q : ℚ) : Int :=
  let N : Int := q.num * 100
  let D : Int := (q.den : Int)
  let n : Int := N.fdiv D
  let r : Int := N.fmod D
  if D < 2 * r then n + 1
  else if 2 * r < D then n
  else if n % 2 = 0 then n else n + 1

/-- Two-digit decimal rendering of a remainder below 100. -/
def twoDigits (r : Int) : String :=
  if r < 10 then "0" ++ toString r else toString r

/-- Python f-string fragment `{float(conf):.2f}`. -/
def format2f (q : ℚ) : String :=
  let m := round2 q
  let sign := if m < 0 then "-" else ""
  let a : Int := |m|
  sign ++ toString (a / 100) ++ "." ++ twoDigits (a % 100)

/-- Stem part of `os.path.splitext` on a bare file name (no path
separator, as produced by `os.listdir`): drop the suffix starting at
the last dot, unless every character before that dot is itself a dot,
in which case the whole name is the stem. -/
def stemChars (p : List Char) : List Char :=
  let ext := p.reverse.takeWhile (fun c => c ≠ '.')
  if ext.length = p.length then p
  else
    let pre := p.take (p.length - ext.length - 1)
    if pre.all (fun c => c = '.') then p else pre

/-- `os.path.splitext(filename)[0]` for listing entries. -/
def splitext_stem (s : String) : String := String.mk (stemChars s.data)

/-- Whether a path string is absolute (begins with the separator). -/
def startsWithSep (b : String) : Bool :=
  match b.data with
  | c :: _ => c = '/'
  | [] => false

/-- Whether a path string already ends with the separator. -/
def endsWithSep (a : String) : Bool :=
  match a.data.getLast? with
  | some c => c = '/'
  | none => false

/-- `os.path.join` for two components on a POSIX system. -/
def path_join (a b : String) : String :=
  if startsWithSep b then b
  else if a = "" ∨ endsWithSep a then a ++ b
  else a ++ "/" ++ b

/-- ASCII lowering of a string, modelling `str.lower()` on the ASCII
file names the batch driver deals with. -/
def strLower (s : String) : String := String.mk (s.data.map Char.toLower)

/-- The fixed allow-list of video suffixes tested by
`filename.lower().endswith((".mp4", ".avi", ".mov", ".mkv"))`. -/
def videoExts : List String := [".mp4", ".avi", ".mov", ".mkv"]

/-- `filename.lower().endswith(tuple)`: some allowed extension is a
suffix of the lowercased name. -/
def hasVideoExt (filename : String) : Bool :=
  videoExts.any (fun e => List.isSuffixOf e.data (strLower filename).data)

/-- Python `zip` over three sequences: truncates at the shortest. -/
def zip3 {α β γ : Type} : List α → List β → List γ → List (α × β × γ)
  | a :: as_, b :: bs, c :: cs => (a, b, c) :: zip3 as_ bs cs
  | _, _, _ => []

/-- One frame's worth of detector output: the `results[0].boxes`
fields read by the script.  `xyxy` is optional because the script
guards with `if boxes is not None`. -/
structure Boxes where
  xyxy : Option (List (ℚ × ℚ × ℚ × ℚ))
  conf : List ℚ
  cls : List ℚ

/-- The cv2 drawing primitives over an abstract frame type.
`rectangle` takes the two corner points, a BGR color and a thickness;
`putText` takes the text, origin, font face, font scale, color and
thickness, mirroring the call sites in the script. -/
structure DrawOps (Frame : Type) where
  rectangle : Frame → Int × Int → Int × Int → Int × Int × Int → Int → Frame
  putText : Frame → String → Int × Int → Int → ℚ → Int × Int × Int → Int → Frame

/-- OpenCV constant used at the `putText` call site. -/
def FONT_HERSHEY_SIMPLEX : Int := 0

/-- A `cv2.VideoCapture`: whether it opened, the raw float properties
the script queries, and the frames it will yield in order (the
`read()` loop stops exactly when this list is exhausted). -/
structure VideoCapture (Frame : Type) where
  isOpened : Bool
  propFps : ℚ
  propWidth : ℚ
  propHeight : ℚ
  propFrameCount : ℚ
  frames : List Frame

/-- `get_cap_info(cap)`: the (fps, width, height, frames_total) tuple,
with the `int()` casts of the three integer-valued properties. -/
def get_cap_info {Frame : Type} (cap : VideoCapture Frame) : ℚ × Int × Int × Int :=
  (cap.propFps, pyInt cap.propWidth, pyInt cap.propHeight, pyInt cap.propFrameCount)

/-- Observable actions of one `process_video` run: console messages,
sink creation, frame writes and handle releases, in program order. -/
inductive Event where
  | openFailed (video_path : String)
  | sinkOpened (output_video_path : String) (fourcc : String) (fps : ℚ) (size : Int × Int)
  | frameWritten
  | progress (frame_counter : Int) (frames_total : Int)
  | sourceReleased
  | sinkReleased
  | saved (output_video_path : String)
deriving DecidableEq, Repr

/-- What one `process_video` call produces: the output file (its path
and the frames written to it, in order) when the writer was opened and
the run completed, and the event trace. -/
structure ProcResult (Frame : Type) where
  outputFile : Option (String × List Frame)
  trace : List Event
deriving DecidableEq, Repr

/-- The body of the per-detection `for` loop: draw the rectangle at
the truncated corner coordinates, look the class name up (an unmapped
id raises `KeyError`), compose the label and draw it at
`(x1, max(y1 - 10, 0))`. -/
def draw_detection {Frame : Type} (ops : DrawOps Frame) (classes : Int → Option String)
    (frame : Frame) (d : (ℚ × ℚ × ℚ × ℚ) × ℚ × ℚ) : Except PyError Frame :=
  let x1 := pyInt d.1.1
  let y1 := pyInt d.1.2.1
  let x2 := pyInt d.1.2.2.1
  let y2 := pyInt d.1.2.2.2
  let conf := d.2.1
  let cls_id := d.2.2
  let f1 := ops.rectangle frame (x1, y1) (x2, y2) (0, 255, 0) 2
  match classes (pyInt cls_id) with
  | none => .error (.keyError (pyInt cls_id))
  | some name =>
    let label := name ++ " " ++ format2f conf
    .ok (ops.putText f1 label (x1, max (y1 - 10) 0) FONT_HERSHEY_SIMPLEX (mkRat 1 2) (0, 255, 255) 2)

/-- The per-detection `for` loop threaded over the frame. -/
def draw_detections {Frame : Type} (ops : DrawOps Frame) (classes : Int → Option String) :
    Frame → List ((ℚ × ℚ × ℚ × ℚ) × ℚ × ℚ) → Except PyError Frame
  | frame, [] => .ok frame
  | frame, d :: rest =>
    match draw_detection ops classes frame d with
    | .error e => .error e
    | .ok f1 => draw_detections ops classes f1 rest

/-- One loop iteration's frame transformation: run the detector,
and if `boxes is not None` draw every zipped detection. -/
def annotate_frame {Frame : Type} (ops : DrawOps Frame) (classes : Int → Option String)
    (model : Frame → Boxes) (frame : Frame) : Except PyError Frame :=
  let r := model frame
  match r.xyxy with
  | none => .ok frame
  | some bs => draw_detections ops classes frame (zip3 bs r.conf r.cls)

/-- The `while True` read loop: annotate each remaining frame, write
it, print the progress line; `frame_counter` is the value before the
iteration's increment (the script starts it at -1). -/
def process_loop {Frame : Type} (ops : DrawOps Frame) (classes : Int → Option String)
    (model : Frame → Boxes) (frames_total : Int) :
    List Frame → Int → Except PyError (List Frame × List Event)
  | [], _ => .ok ([], [])
  | f :: rest, frame_counter =>
    match annotate_frame ops classes model f with
    | .error e => .error e
    | .ok f1 =>
      match process_loop ops classes model frames_total rest (frame_counter + 1) with
      | .error e => .error e
      | .ok (ws, evs) =>
        .ok (f1 :: ws,
          Event.frameWritten :: Event.progress (frame_counter + 1) frames_total :: evs)

/-- `process_video(video_path, filename, model)`.  `classes` and
`output_dir` come from `config` (absent from the sources) and are
passed explicitly; the capture the path opens to is an argument.  On
an unopened capture the failure message is printed and the function
returns with no writer opened; otherwise the writer is configured
from `get_cap_info`, every frame is annotated and written, and both
handles are released at the end. -/
def process_video {Frame : Type} (ops : DrawOps Frame) (classes : Int → Option String)
    (output_dir : String) (cap : VideoCapture Frame) (video_path filename : String)
    (model : Frame → Boxes) : Except PyError (ProcResult Frame) :=
  if cap.isOpened then
    let info := get_cap_info cap
    let base_name := splitext_stem filename
    let output_video_path := path_join output_dir (base_name ++ "_processed.mp4")
    match process_loop ops classes model info.2.2.2 cap.frames (-1) with
    | .error e => .error e
    | .ok (written, evs) =>
      .ok { outputFile := some (output_video_path, written),
            trace := Event.sinkOpened output_video_path "mp4v" info.1 (info.2.1, info.2.2.1)
              :: evs ++ [Event.sourceReleased, Event.sinkReleased,
                Event.saved output_video_path] }
  else
    .ok { outputFile := none, trace := [Event.openFailed video_path] }

/-- The `for filename in os.listdir(input_dir)` loop of `main`:
process each recognized video file, skip everything else, collect the
created output files and the names the pipeline was invoked on, in
order.  An uncaught error from `process_video` aborts the whole
loop. -/
def main_loop {Frame : Type} (ops : DrawOps Frame) (classes : Int → Option String)
    (input_dir output_dir : String) (fsys : String → VideoCapture Frame)
    (model : Frame → Boxes) :
    List String → Except PyError (List (String × List Frame) × List String)
  | [] => .ok ([], [])
  | filename :: rest =>
    if hasVideoExt filename then
      let video_path := path_join input_dir filename
      match process_video ops classes output_dir (fsys video_path) video_path filename model with
      | .error e => .error e
      | .ok r =>
        match main_loop ops classes input_dir output_dir fsys model rest with
        | .error e => .error e
        | .ok (files, invoked) =>
          .ok ((match r.outputFile with
                | some pf => pf :: files
                | none => files), filename :: invoked)
    else main_loop ops classes input_dir output_dir fsys model rest

namespace Model

/-- `main()`: iterate over the directory listing (model loading and
`os.makedirs` are environment effects outside the embedded state). -/
def main {Frame : Type} (ops : DrawOps Frame) (classes : Int → Option String)
    (input_dir output_dir : String) (fsys : String → VideoCapture Frame)
    (model : Frame → Boxes) (listing : List String) :
    Except PyError (List (String × List Frame) × List String) :=
  main_loop ops classes input_dir output_dir fsys model listing

end Model

/-- The frames a path ends up holding after a sequence of file
creations: the last write to that path wins. -/
def lastWrite {α : Type} (files : List (String × α)) (p : String) : Option α :=
  files.foldl (fun acc qv => if qv.1 = p then some qv.2 else acc) none

/-- The per-frame annotation applied to a whole list of frames in
order: the frame-transforming effect of the read loop, separated from
the write and progress bookkeeping. -/
def annotate_all {Frame : Type} (ops : DrawOps Frame) (classes : Int → Option String)
    (model : Frame → Boxes) : List Frame → Except PyError (List Frame)
  | [] => .ok []
  | f :: rest =>
    match annotate_frame ops classes model f with
    | .error e => .error e
    | .ok f1 =>
      match annotate_all ops classes model rest with
      | .error e => .error e
      | .ok ws => .ok (f1 :: ws)

/-- Concrete drawing backend over natural-number frames, used to
instantiate the abstract cv2 primitives on closed examples. -/
def natOps : DrawOps Nat :=
  { rectangle := fun f _ _ _ _ => f + 1,
    putText := fun f _ _ _ _ _ _ => f + 2 }

/-- Concrete two-entry class table for closed examples. -/
def classes0 : Int → Option String :=
  fun i => if i = 0 then some "person" else if i = 1 then some "car" else none

/-- Detector returning no detections on every frame. -/
def model0 : Nat → Boxes := fun _ => { xyxy := some [], conf := [], cls := [] }

/-- Detector returning one mapped detection on every frame. -/
def model1 : Nat → Boxes :=
  fun _ => { xyxy := some [(5, 20, 30, 40)], conf := [mkRat 91 100], cls := [0] }

/-- Detector returning one detection with the unmapped class id 7. -/
def model2 : Nat → Boxes :=
  fun _ => { xyxy := some [(5, 20, 30, 40)], conf := [mkRat 42 100], cls := [7] }

/-- Detector returning one mapped detection on frame 3 and zero
detections on every other frame: a mixed video. -/
def modelMixed : Nat → Boxes :=
  fun f =>
    if f = 3 then { xyxy := some [(5, 20, 30, 40)], conf := [mkRat 91 100], cls := [0] }
    else { xyxy := some [], conf := [], cls := [] }

/-- A capture that opened, with two frames. -/
def cap1 : VideoCapture Nat :=
  { isOpened := true, propFps := 10, propWidth := 640, propHeight := 480,
    propFrameCount := 2, frames := [3, 4] }

/-- A capture that failed to open. -/
def badCap : VideoCapture Nat :=
  { isOpened := false, propFps := 0, propWidth := 0, propHeight := 0,
    propFrameCount := 0, frames := [] }

/-- Helper: if the loop over `fs` succeeds with written frames `ws`,
those are exactly the per-frame annotations of `fs`, and there are as
many of them as input frames. -/
theorem process_loop_ok {Frame : Type} (ops : DrawOps Frame) (classes : Int → Option String)
    (model : Frame → Boxes) (frames_total : Int) :
    ∀ (fs : List Frame) (c : Int) (ws : List Frame) (evs : List Event),
      process_loop ops classes model frames_total fs c = .ok (ws, evs) →
      annotate_all ops classes model fs = .ok ws ∧ ws.length = fs.length := by
  intro fs
  induction fs with
  | nil =>
    intro c ws evs h
    simp only [process_loop, Except.ok.injEq, Prod.mk.injEq] at h
    obtain ⟨hw, _⟩ := h
    subst hw
    exact ⟨rfl, rfl⟩
  | cons f rest ih =>
    intro c ws evs h
    simp only [process_loop] at h
    cases hf : annotate_frame ops classes model f with
    | error e => rw [hf] at h; exact absurd h (by simp)
    | ok f1 =>
      rw [hf] at h
      cases hrest : process_loop ops classes model frames_total rest (c + 1) with
      | error e => rw [hrest] at h; exact absurd h (by simp)
      | ok p =>
        obtain ⟨ws1, evs1⟩ := p
        rw [hrest] at h
        simp only [Except.ok.injEq, Prod.mk.injEq] at h
        obtain ⟨hw, _⟩ := h
        obtain ⟨ha, hl⟩ := ih (c + 1) ws1 evs1 hrest
        subst hw
        simp [annotate_all, hf, ha, hl]

/-- C1: for every video whose source opens successfully, every frame
read from the capture is written to the sink exactly once, in the
original order (the written list is the in-order image of the input
frames under the per-frame annotation), so the output frame count
equals the input frame count. -/
theorem process_video_writes_all_frames {Frame : Type} (ops : DrawOps Frame)
    (classes : Int → Option String) (output_dir : String) (cap : VideoCapture Frame)
    (video_path filename : String) (model : Frame → Boxes) (r : ProcResult Frame)
    (hopen : cap.isOpened = true)
    (hrun : process_video ops classes output_dir cap video_path filename model = .ok r) :
    ∃ ws : List Frame,
      annotate_all ops classes model cap.frames = .ok ws ∧
      r.outputFile = some (path_join output_dir (splitext_stem filename ++ "_processed.mp4"), ws) ∧
      ws.length = cap.frames.length := by
  unfold process_video at hrun
  rw [hopen] at hrun
  simp only [if_true] at hrun
  cases hloop : process_loop ops classes model (get_cap_info cap).2.2.2 cap.frames (-1) with
  | error e => rw [hloop] at hrun; exact absurd hrun (by simp)
  | ok p =>
    obtain ⟨written, evs⟩ := p
    rw [hloop] at hrun
    simp only [Except.ok.injEq] at hrun
    obtain ⟨ha, hl⟩ := process_loop_ok ops classes model (get_cap_info cap).2.2.2
      cap.frames (-1) written evs hloop
    refine ⟨written, ha, ?_, hl⟩
    rw [← hrun]

/-- Closed instance of C1: a two-frame capture, a detector returning
one detection per frame; both hypotheses hold by evaluation and both
written frames are accounted for. -/
theorem process_video_writes_all_frames_witness :
    cap1.isOpened = true ∧
    process_video natOps classes0 "out" cap1 "in/clip.mp4" "clip.mp4" model1 =
      .ok { outputFile := some ("out/clip_processed.mp4", [6, 7]),
            trace := [Event.sinkOpened "out/clip_processed.mp4" "mp4v" 10 (640, 480),
              Event.frameWritten, Event.progress 0 2, Event.frameWritten, Event.progress 1 2,
              Event.sourceReleased, Event.sinkReleased,
              Event.saved "out/clip_processed.mp4"] } ∧
    ∃ ws : List Nat,
      annotate_all natOps classes0 model1 cap1.frames = .ok ws ∧
      (some (("out/clip_processed.mp4" : String), [6, 7]) : Option (String × List Nat)) =
        some (path_join "out" (splitext_stem "clip.mp4" ++ "_processed.mp4"), ws) ∧
      ws.length = cap1.frames.length :=
  ⟨rfl, rfl,
    process_video_writes_all_frames natOps classes0 "out" cap1 "in/clip.mp4" "clip.mp4" model1
      { outputFile := some ("out/clip_processed.mp4", [6, 7]),
        trace := [Event.sinkOpened "out/clip_processed.mp4" "mp4v" 10 (640, 480),
          Event.frameWritten, Event.progress 0 2, Event.frameWritten, Event.progress 1 2,
          Event.sourceReleased, Event.sinkReleased, Event.saved "out/clip_processed.mp4"] }
      rfl rfl⟩

/-- Filesystem in which `in/bad.mp4` opens to a failed capture and
every other path opens to the good two-frame capture. -/
def fsysMixed : String → VideoCapture Nat :=
  fun p => if p = "in/bad.mp4" then badCap else cap1

/-- C2: if the capture at the joined video path cannot be opened,
`process_video` reports the failure with the video path and returns
with no output file and no sink event, and the batch loop's result on
the remaining listing is unchanged apart from recording the
invocation, so the other videos are still processed.  The open check
is the only guard: every other failure is the `Except.error` case. -/
theorem process_video_open_failure {Frame : Type} (ops : DrawOps Frame)
    (classes : Int → Option String) (input_dir output_dir : String)
    (fsys : String → VideoCapture Frame) (model : Frame → Boxes)
    (filename : String) (rest : List String)
    (hopen : (fsys (path_join input_dir filename)).isOpened = false)
    (hext : hasVideoExt filename = true) :
    process_video ops classes output_dir (fsys (path_join input_dir filename))
        (path_join input_dir filename) filename model =
      .ok { outputFile := none,
            trace := [Event.openFailed (path_join input_dir filename)] } ∧
    main_loop ops classes input_dir output_dir fsys model (filename :: rest) =
      (main_loop ops classes input_dir output_dir fsys model rest).map
        (fun p => (p.1, filename :: p.2)) := by
  have hpv : process_video ops classes output_dir (fsys (path_join input_dir filename))
      (path_join input_dir filename) filename model =
      .ok { outputFile := none,
            trace := [Event.openFailed (path_join input_dir filename)] } := by
    unfold process_video
    rw [hopen]
    simp
  refine ⟨hpv, ?_⟩
  simp only [main_loop]
  rw [hext]
  simp only [if_true]
  rw [hpv]
  cases hrest : main_loop ops classes input_dir output_dir fsys model rest with
  | error e => simp [Except.map]
  | ok p =>
    obtain ⟨files, invoked⟩ := p
    simp [Except.map]

/-- Closed instance of C2: `bad.mp4` fails to open, is reported, and
`good.avi` after it is still fully processed. -/
theorem process_video_open_failure_witness :
    (fsysMixed (path_join "in" "bad.mp4")).isOpened = false ∧
    hasVideoExt "bad.mp4" = true ∧
    (process_video natOps classes0 "out" (fsysMixed (path_join "in" "bad.mp4"))
        (path_join "in" "bad.mp4") "bad.mp4" model0 =
      .ok { outputFile := none,
            trace := [Event.openFailed (path_join "in" "bad.mp4")] } ∧
    main_loop natOps classes0 "in" "out" fsysMixed model0 ("bad.mp4" :: ["good.avi"]) =
      (main_loop natOps classes0 "in" "out" fsysMixed model0 ["good.avi"]).map
        (fun p => (p.1, "bad.mp4" :: p.2))) :=
  ⟨by decide, by decide,
    process_video_open_failure natOps classes0 "in" "out" fsysMixed model0
      "bad.mp4" ["good.avi"] (by decide) (by decide)⟩

/-- C3: for every rendered detection whose class id is in the table,
the label is composed as the class name, a space, and the confidence
formatted to two decimals, and it is drawn at the box's truncated
top-left x with y-coordinate `max (y1 - 10) 0`, which is never
negative. -/
theorem draw_detection_label {Frame : Type} (ops : DrawOps Frame)
    (classes : Int → Option String) (frame : Frame)
    (qx1 qy1 qx2 qy2 conf cls_id : ℚ) (name : String)
    (hcls : classes (pyInt cls_id) = some name) :
    draw_detection ops classes frame ((qx1, qy1, qx2, qy2), conf, cls_id) =
      .ok (ops.putText
        (ops.rectangle frame (pyInt qx1, pyInt qy1) (pyInt qx2, pyInt qy2) (0, 255, 0) 2)
        (name ++ " " ++ format2f conf)
        (pyInt qx1, max (pyInt qy1 - 10) 0) FONT_HERSHEY_SIMPLEX (mkRat 1 2) (0, 255, 255) 2) ∧
    0 ≤ max (pyInt qy1 - 10) 0 := by
  constructor
  · unfold draw_detection
    dsimp only
    rw [hcls]
  · exact le_max_right _ _

/-- Closed instance of C3: a detection with `y1 = 3.2` near the top
edge gets the label "person 0.91" drawn at y-coordinate
`max (3 - 10) 0 = 0`. -/
theorem draw_detection_label_witness :
    classes0 (pyInt 0) = some "person" ∧
    (draw_detection natOps classes0 (5 : Nat) ((mkRat 11 2, mkRat 16 5, 30, 40), mkRat 91 100, 0) =
      .ok (natOps.putText
        (natOps.rectangle 5 (pyInt (mkRat 11 2), pyInt (mkRat 16 5)) (pyInt 30, pyInt 40)
          (0, 255, 0) 2)
        ("person" ++ " " ++ format2f (mkRat 91 100))
        (pyInt (mkRat 11 2), max (pyInt (mkRat 16 5) - 10) 0) FONT_HERSHEY_SIMPLEX
        (mkRat 1 2) (0, 255, 255) 2) ∧
    0 ≤ max (pyInt (mkRat 16 5) - 10) 0) ∧
    max (pyInt (mkRat 16 5) - 10) 0 = 0 ∧
    "person" ++ " " ++ format2f (mkRat 91 100) = "person 0.91" :=
  ⟨rfl,
    draw_detection_label natOps classes0 5 (mkRat 11 2) (mkRat 16 5) 30 40
      (mkRat 91 100) 0 "person" rfl,
    rfl, rfl⟩

/-- Helper: the triple zip with an empty first sequence is empty. -/
theorem zip3_nil {α β γ : Type} (bs : List β) (cs : List γ) :
    zip3 ([] : List α) bs cs = [] := by
  cases bs <;> cases cs <;> rfl

/-- Helper: a frame on which the detector reports `None` boxes or an
empty box list passes through the annotation step unchanged. -/
theorem annotate_frame_zero {Frame : Type} (ops : DrawOps Frame)
    (classes : Int → Option String) (model : Frame → Boxes) (frame : Frame)
    (hz : (model frame).xyxy = none ∨ (model frame).xyxy = some []) :
    annotate_frame ops classes model frame = .ok frame := by
  unfold annotate_frame
  dsimp only
  rcases hz with h | h
  · rw [h]
  · rw [h]
    dsimp only
    rw [zip3_nil]
    rfl

/-- Helper: when every frame has zero detections, the read loop
writes the input frames back unchanged. -/
theorem process_loop_zero {Frame : Type} (ops : DrawOps Frame)
    (classes : Int → Option String) (model : Frame → Boxes) (frames_total : Int) :
    ∀ (fs : List Frame) (c : Int),
      (∀ f ∈ fs, (model f).xyxy = none ∨ (model f).xyxy = some []) →
      ∃ evs, process_loop ops classes model frames_total fs c = .ok (fs, evs) := by
  intro fs
  induction fs with
  | nil => exact fun c _ => ⟨[], rfl⟩
  | cons f rest ih =>
    intro c hz
    obtain ⟨evs, hevs⟩ := ih (c + 1) (fun g hg => hz g (List.mem_cons_of_mem f hg))
    refine ⟨Event.frameWritten :: Event.progress (c + 1) frames_total :: evs, ?_⟩
    simp only [process_loop]
    rw [annotate_frame_zero ops classes model f (hz f (List.mem_cons_self f rest)), hevs]

/-- Corollary for the all-zero special case: for a successfully
opened video all of whose frames receive zero detections, the output
file holds exactly the input frames. -/
theorem process_video_zero_detections {Frame : Type} (ops : DrawOps Frame)
    (classes : Int → Option String) (output_dir : String) (cap : VideoCapture Frame)
    (video_path filename : String) (model : Frame → Boxes)
    (hopen : cap.isOpened = true)
    (hz : ∀ f ∈ cap.frames, (model f).xyxy = none ∨ (model f).xyxy = some []) :
    ∃ tr, process_video ops classes output_dir cap video_path filename model =
      .ok { outputFile := some
              (path_join output_dir (splitext_stem filename ++ "_processed.mp4"), cap.frames),
            trace := tr } := by
  obtain ⟨evs, hevs⟩ := process_loop_zero ops classes model
    (get_cap_info cap).2.2.2 cap.frames (-1) hz
  refine ⟨Event.sinkOpened (path_join output_dir (splitext_stem filename ++ "_processed.mp4"))
      "mp4v" (get_cap_info cap).1 ((get_cap_info cap).2.1, (get_cap_info cap).2.2.1)
    :: evs ++ [Event.sourceReleased, Event.sinkReleased,
      Event.saved (path_join output_dir (splitext_stem filename ++ "_processed.mp4"))], ?_⟩
  unfold process_video
  rw [hopen]
  simp only [if_true]
  rw [hevs]

/-- Closed instance of the all-zero corollary: both frames of the
two-frame capture pass through untouched under the zero-detection
detector. -/
theorem process_video_zero_detections_witness :
    cap1.isOpened = true ∧
    (∀ f ∈ cap1.frames, (model0 f).xyxy = none ∨ (model0 f).xyxy = some []) ∧
    ∃ tr, process_video natOps classes0 "out" cap1 "in/clip.mp4" "clip.mp4" model0 =
      .ok { outputFile := some
              (path_join "out" (splitext_stem "clip.mp4" ++ "_processed.mp4"), cap1.frames),
            trace := tr } :=
  ⟨rfl, by decide,
    process_video_zero_detections natOps classes0 "out" cap1 "in/clip.mp4" "clip.mp4" model0
      rfl (by decide)⟩

/-- Helper: when the per-frame annotation of a whole frame list
succeeds, it succeeds pointwise: the written frame at each index is
the annotation of the input frame at that index. -/
theorem annotate_all_get {Frame : Type} (ops : DrawOps Frame)
    (classes : Int → Option String) (model : Frame → Boxes) :
    ∀ (fs ws : List Frame), annotate_all ops classes model fs = .ok ws →
      ∀ (i : Nat) (hi : i < fs.length) (hj : i < ws.length),
        annotate_frame ops classes model (fs.get ⟨i, hi⟩) = .ok (ws.get ⟨i, hj⟩) := by
  intro fs
  induction fs with
  | nil =>
    intro ws h i hi hj
    exact absurd hi (by simp)
  | cons f rest ih =>
    intro ws h i hi hj
    simp only [annotate_all] at h
    cases hf : annotate_frame ops classes model f with
    | error e => rw [hf] at h; exact absurd h (by simp)
    | ok f1 =>
      rw [hf] at h
      cases hrest : annotate_all ops classes model rest with
      | error e => rw [hrest] at h; exact absurd h (by simp)
      | ok ws1 =>
        rw [hrest] at h
        simp only [Except.ok.injEq] at h
        subst h
        cases i with
        | zero => simpa using hf
        | succ n =>
          exact ih ws1 hrest n (Nat.succ_lt_succ_iff.mp (by simpa using hi))
            (Nat.succ_lt_succ_iff.mp (by simpa using hj))

/-- C4: in any successful run on an opened video, every individual
frame on which the detector returns zero detections -- even when
other frames of the same video have detections -- is written to the
output file pixel-identical to the input frame, at its own index. -/
theorem process_video_zero_detection_frame {Frame : Type} (ops : DrawOps Frame)
    (classes : Int → Option String) (output_dir : String) (cap : VideoCapture Frame)
    (video_path filename : String) (model : Frame → Boxes) (r : ProcResult Frame)
    (path : String) (ws : List Frame) (i : Nat)
    (hopen : cap.isOpened = true)
    (hrun : process_video ops classes output_dir cap video_path filename model = .ok r)
    (hout : r.outputFile = some (path, ws))
    (hi : i < cap.frames.length)
    (hz : (model (cap.frames.get ⟨i, hi⟩)).xyxy = none ∨
      (model (cap.frames.get ⟨i, hi⟩)).xyxy = some []) :
    ∃ hj : i < ws.length, ws.get ⟨i, hj⟩ = cap.frames.get ⟨i, hi⟩ := by
  unfold process_video at hrun
  rw [hopen] at hrun
  simp only [if_true] at hrun
  cases hloop : process_loop ops classes model (get_cap_info cap).2.2.2 cap.frames (-1) with
  | error e => rw [hloop] at hrun; exact absurd hrun (by simp)
  | ok p =>
    obtain ⟨written, evs⟩ := p
    rw [hloop] at hrun
    simp only [Except.ok.injEq] at hrun
    obtain ⟨ha, hl⟩ := process_loop_ok ops classes model (get_cap_info cap).2.2.2
      cap.frames (-1) written evs hloop
    have hof : r.outputFile =
        some (path_join output_dir (splitext_stem filename ++ "_processed.mp4"), written) := by
      rw [← hrun]
    rw [hof] at hout
    simp only [Option.some.injEq, Prod.mk.injEq] at hout
    obtain ⟨-, hws⟩ := hout
    subst hws
    have hj : i < written.length := by rw [hl]; exact hi
    refine ⟨hj, ?_⟩
    have hpt := annotate_all_get ops classes model cap.frames written ha i hi hj
    rw [annotate_frame_zero ops classes model (cap.frames.get ⟨i, hi⟩) hz] at hpt
    simp only [Except.ok.injEq] at hpt
    exact hpt.symm

/-- Closed instance of C4 on a mixed video: frame 3 gets a detection
and is altered, while frame 4 (index 1) has zero detections and is
written back identical. -/
theorem process_video_zero_detection_frame_witness :
    cap1.isOpened = true ∧
    process_video natOps classes0 "out" cap1 "in/clip.mp4" "clip.mp4" modelMixed =
      .ok { outputFile := some ("out/clip_processed.mp4", [6, 4]),
            trace := [Event.sinkOpened "out/clip_processed.mp4" "mp4v" 10 (640, 480),
              Event.frameWritten, Event.progress 0 2, Event.frameWritten, Event.progress 1 2,
              Event.sourceReleased, Event.sinkReleased,
              Event.saved "out/clip_processed.mp4"] } ∧
    (modelMixed (cap1.frames.get ⟨1, by decide⟩)).xyxy = some [] ∧
    ∃ hj : 1 < ([6, 4] : List Nat).length,
      ([6, 4] : List Nat).get ⟨1, hj⟩ = cap1.frames.get ⟨1, by decide⟩ :=
  ⟨rfl, rfl, rfl,
    process_video_zero_detection_frame natOps classes0 "out" cap1 "in/clip.mp4" "clip.mp4"
      modelMixed
      { outputFile := some ("out/clip_processed.mp4", [6, 4]),
        trace := [Event.sinkOpened "out/clip_processed.mp4" "mp4v" 10 (640, 480),
          Event.frameWritten, Event.progress 0 2, Event.frameWritten, Event.progress 1 2,
          Event.sourceReleased, Event.sinkReleased, Event.saved "out/clip_processed.mp4"] }
      "out/clip_processed.mp4" [6, 4] 1 rfl rfl rfl (by decide) (Or.inr rfl)⟩

/-- C5: every successful `process_video` run creates exactly one
output file, at the configured output directory joined with the input
filename's stem followed by "_processed" and the fixed ".mp4"
extension, whatever the input extension was. -/
theorem process_video_output_path {Frame : Type} (ops : DrawOps Frame)
    (classes : Int → Option String) (output_dir : String) (cap : VideoCapture Frame)
    (video_path filename : String) (model : Frame → Boxes) (r : ProcResult Frame)
    (hopen : cap.isOpened = true)
    (hrun : process_video ops classes output_dir cap video_path filename model = .ok r) :
    ∃ ws : List Frame, r.outputFile =
      some (path_join output_dir (splitext_stem filename ++ "_processed.mp4"), ws) := by
  unfold process_video at hrun
  rw [hopen] at hrun
  simp only [if_true] at hrun
  cases hloop : process_loop ops classes model (get_cap_info cap).2.2.2 cap.frames (-1) with
  | error e => rw [hloop] at hrun; exact absurd hrun (by simp)
  | ok p =>
    obtain ⟨written, evs⟩ := p
    rw [hloop] at hrun
    simp only [Except.ok.injEq] at hrun
    exact ⟨written, by rw [← hrun]⟩

/-- Closed instance of C5: an input named "clip.avi" still produces
"out/clip_processed.mp4". -/
theorem process_video_output_path_witness :
    cap1.isOpened = true ∧
    process_video natOps classes0 "out" cap1 "in/clip.avi" "clip.avi" model1 =
      .ok { outputFile := some ("out/clip_processed.mp4", [6, 7]),
            trace := [Event.sinkOpened "out/clip_processed.mp4" "mp4v" 10 (640, 480),
              Event.frameWritten, Event.progress 0 2, Event.frameWritten, Event.progress 1 2,
              Event.sourceReleased, Event.sinkReleased,
              Event.saved "out/clip_processed.mp4"] } ∧
    ∃ ws : List Nat,
      (some (("out/clip_processed.mp4" : String), [6, 7]) : Option (String × List Nat)) =
        some (path_join "out" (splitext_stem "clip.avi" ++ "_processed.mp4"), ws) :=
  ⟨rfl, rfl,
    process_video_output_path natOps classes0 "out" cap1 "in/clip.avi" "clip.avi" model1
      { outputFile := some ("out/clip_processed.mp4", [6, 7]),
        trace := [Event.sinkOpened "out/clip_processed.mp4" "mp4v" 10 (640, 480),
          Event.frameWritten, Event.progress 0 2, Event.frameWritten, Event.progress 1 2,
          Event.sourceReleased, Event.sinkReleased, Event.saved "out/clip_processed.mp4"] }
      rfl rfl⟩

/-- Helper: the filenames the batch loop invokes the pipeline on, in
order, are exactly the listing entries with an allowed extension. -/
theorem main_loop_invocations {Frame : Type} (ops : DrawOps Frame)
    (classes : Int → Option String) (input_dir output_dir : String)
    (fsys : String → VideoCapture Frame) (model : Frame → Boxes) :
    ∀ (listing : List String) (files : List (String × List Frame)) (invoked : List String),
      main_loop ops classes input_dir output_dir fsys model listing = .ok (files, invoked) →
      invoked = listing.filter (fun f => hasVideoExt f) := by
  intro listing
  induction listing with
  | nil =>
    intro files invoked h
    simp only [main_loop, Except.ok.injEq, Prod.mk.injEq] at h
    simp [← h.2]
  | cons fn rest ih =>
    intro files invoked h
    simp only [main_loop] at h
    by_cases hext : hasVideoExt fn = true
    · rw [hext] at h
      simp only [if_true] at h
      cases hpv : process_video ops classes output_dir (fsys (path_join input_dir fn))
          (path_join input_dir fn) fn model with
      | error e => rw [hpv] at h; exact absurd h (by simp)
      | ok r =>
        rw [hpv] at h
        cases hrest : main_loop ops classes input_dir output_dir fsys model rest with
        | error e => rw [hrest] at h; exact absurd h (by simp)
        | ok p =>
          obtain ⟨files1, invoked1⟩ := p
          rw [hrest] at h
          simp only [Except.ok.injEq, Prod.mk.injEq] at h
          rw [← h.2, List.filter_cons, if_pos hext, ih files1 invoked1 hrest]
    · rw [Bool.not_eq_true] at hext
      rw [hext] at h
      simp only [Bool.false_eq_true, if_false] at h
      rw [List.filter_cons, hext, ih files invoked h]
      simp

/-- C6: on a run that completes, the batch driver has invoked the
annotation pipeline exactly once per listing entry whose name ends,
case-insensitively, in one of ".mp4", ".avi", ".mov", ".mkv", in the
listing's order, and has skipped every other entry. -/
theorem main_invokes_once_per_video {Frame : Type} (ops : DrawOps Frame)
    (classes : Int → Option String) (input_dir output_dir : String)
    (fsys : String → VideoCapture Frame) (model : Frame → Boxes)
    (listing : List String) (files : List (String × List Frame)) (invoked : List String)
    (hrun : Model.main ops classes input_dir output_dir fsys model listing =
      .ok (files, invoked)) :
    invoked = listing.filter (fun f => hasVideoExt f) :=
  main_loop_invocations ops classes input_dir output_dir fsys model listing files invoked hrun

/-- Closed instance of C6: "clip.mp4" is processed, "notes.txt" is
ignored. -/
theorem main_invokes_once_per_video_witness :
    Model.main natOps classes0 "in" "out" (fun _ => cap1) model0 ["clip.mp4", "notes.txt"] =
      .ok ([("out/clip_processed.mp4", [3, 4])], ["clip.mp4"]) ∧
    (["clip.mp4"] : List String) = ["clip.mp4", "notes.txt"].filter (fun f => hasVideoExt f) :=
  ⟨rfl,
    main_invokes_once_per_video natOps classes0 "in" "out" (fun _ => cap1) model0
      ["clip.mp4", "notes.txt"] [("out/clip_processed.mp4", [3, 4])] ["clip.mp4"] rfl⟩

/-- C7 counterexample: on the source-open failure path `process_video`
terminates with a trace containing no source-release action at all --
the script returns before any `release()` call -- so the source handle
is not released on this termination path. -/
theorem process_video_no_release_on_open_failure :
    process_video natOps classes0 "out" badCap "in/bad.mp4" "bad.mp4" model0 =
      .ok { outputFile := none, trace := [Event.openFailed "in/bad.mp4"] } ∧
    Event.sourceReleased ∉ [Event.openFailed "in/bad.mp4"] :=
  ⟨rfl, by decide⟩

/-- C7 (amended): on normal exhaustion of frames the sink is opened
(only after the source opened) and the run ends by releasing the
source and then the sink; on source-open failure the sink is never
opened and the function returns right after reporting the failure,
with no explicit release of the source handle. -/
theorem process_video_release_behavior {Frame : Type} (ops : DrawOps Frame)
    (classes : Int → Option String) (output_dir : String) (cap : VideoCapture Frame)
    (video_path filename : String) (model : Frame → Boxes) (r : ProcResult Frame) :
    (cap.isOpened = false →
      process_video ops classes output_dir cap video_path filename model =
        .ok { outputFile := none, trace := [Event.openFailed video_path] }) ∧
    (cap.isOpened = true →
      process_video ops classes output_dir cap video_path filename model = .ok r →
      ∃ evs, r.trace =
        Event.sinkOpened (path_join output_dir (splitext_stem filename ++ "_processed.mp4"))
            "mp4v" cap.propFps (pyInt cap.propWidth, pyInt cap.propHeight)
          :: evs ++ [Event.sourceReleased, Event.sinkReleased,
            Event.saved (path_join output_dir (splitext_stem filename ++ "_processed.mp4"))]) := by
  constructor
  · intro hopen
    unfold process_video
    rw [hopen]
    simp
  · intro hopen hrun
    unfold process_video at hrun
    rw [hopen] at hrun
    simp only [if_true] at hrun
    cases hloop : process_loop ops classes model (get_cap_info cap).2.2.2 cap.frames (-1) with
    | error e => rw [hloop] at hrun; exact absurd hrun (by simp)
    | ok p =>
      obtain ⟨written, evs⟩ := p
      rw [hloop] at hrun
      simp only [Except.ok.injEq] at hrun
      exact ⟨evs, by rw [← hrun]; rfl⟩

/-- Closed instance of the amended C7, exercising both modes: the
failed capture yields only the failure report, and the completed run's
trace opens the sink and ends with the two releases. -/
theorem process_video_release_behavior_witness :
    badCap.isOpened = false ∧
    process_video natOps classes0 "out" badCap "in/bad.mp4" "bad.mp4" model0 =
      .ok { outputFile := none, trace := [Event.openFailed "in/bad.mp4"] } ∧
    cap1.isOpened = true ∧
    ∃ evs, ([Event.sinkOpened "out/clip_processed.mp4" "mp4v" 10 (640, 480),
        Event.frameWritten, Event.progress 0 2, Event.frameWritten, Event.progress 1 2,
        Event.sourceReleased, Event.sinkReleased,
        Event.saved "out/clip_processed.mp4"] : List Event) =
      Event.sinkOpened (path_join "out" (splitext_stem "clip.mp4" ++ "_processed.mp4"))
          "mp4v" cap1.propFps (pyInt cap1.propWidth, pyInt cap1.propHeight)
        :: evs ++ [Event.sourceReleased, Event.sinkReleased,
          Event.saved (path_join "out" (splitext_stem "clip.mp4" ++ "_processed.mp4"))] :=
  ⟨rfl,
    (process_video_release_behavior natOps classes0 "out" badCap "in/bad.mp4" "bad.mp4"
      model0 { outputFile := none, trace := [] }).1 rfl,
    rfl,
    (process_video_release_behavior natOps classes0 "out" cap1 "in/clip.mp4" "clip.mp4"
      model1
      { outputFile := some ("out/clip_processed.mp4", [6, 7]),
        trace := [Event.sinkOpened "out/clip_processed.mp4" "mp4v" 10 (640, 480),
          Event.frameWritten, Event.progress 0 2, Event.frameWritten, Event.progress 1 2,
          Event.sourceReleased, Event.sinkReleased,
          Event.saved "out/clip_processed.mp4"] }).2 rfl rfl⟩

/-- C8: an id absent from the class table makes the unguarded
`classes[int(cls_id)]` lookup fail: with an opened source whose first
frame yields such a detection, `process_video` raises the key error,
and an erroring `process_video` aborts the whole batch loop, so the
remaining listing entries are never reached. -/
theorem unmapped_class_id_aborts_batch {Frame : Type} (ops : DrawOps Frame)
    (classes : Int → Option String) (input_dir output_dir : String)
    (fsys : String → VideoCapture Frame) (model : Frame → Boxes)
    (cap : VideoCapture Frame) (video_path filename : String) (rest : List String)
    (f : Frame) (fs : List Frame) (b : ℚ × ℚ × ℚ × ℚ) (bs : List (ℚ × ℚ × ℚ × ℚ))
    (c : ℚ) (cs : List ℚ) (k : ℚ) (ks : List ℚ) (e : PyError)
    (hopen : cap.isOpened = true) (hframes : cap.frames = f :: fs)
    (hb : (model f).xyxy = some (b :: bs)) (hc : (model f).conf = c :: cs)
    (hk : (model f).cls = k :: ks) (hmiss : classes (pyInt k) = none) :
    process_video ops classes output_dir cap video_path filename model =
      .error (.keyError (pyInt k)) ∧
    (hasVideoExt filename = true →
      process_video ops classes output_dir (fsys (path_join input_dir filename))
          (path_join input_dir filename) filename model = .error e →
      Model.main ops classes input_dir output_dir fsys model (filename :: rest) =
        .error e) := by
  have hdet : draw_detection ops classes f (b, c, k) = .error (.keyError (pyInt k)) := by
    unfold draw_detection
    dsimp only
    rw [hmiss]
  have hann : annotate_frame ops classes model f = .error (.keyError (pyInt k)) := by
    unfold annotate_frame
    dsimp only
    rw [hb, hc, hk]
    simp only [zip3, draw_detections]
    rw [hdet]
  constructor
  · unfold process_video
    rw [hopen]
    simp only [if_true]
    rw [hframes]
    simp only [process_loop]
    rw [hann]
  · intro hext hrun
    simp only [Model.main, main_loop]
    rw [hext]
    simp only [if_true]
    rw [hrun]

/-- Closed instance of C8: class id 7 is not in the two-entry table;
the video errors with that key and the batch run on
["clip.mp4", "next.avi"] aborts with the same error before reaching
"next.avi". -/
theorem unmapped_class_id_aborts_batch_witness :
    cap1.isOpened = true ∧ classes0 (pyInt 7) = none ∧
    (process_video natOps classes0 "out" cap1 (path_join "in" "clip.mp4") "clip.mp4" model2 =
       .error (.keyError (pyInt 7)) ∧
     (hasVideoExt "clip.mp4" = true →
      process_video natOps classes0 "out" ((fun _ => cap1) (path_join "in" "clip.mp4"))
          (path_join "in" "clip.mp4") "clip.mp4" model2 = .error (.keyError (pyInt 7)) →
      Model.main natOps classes0 "in" "out" (fun _ => cap1) model2 ("clip.mp4" :: ["next.avi"]) =
        .error (.keyError (pyInt 7)))) ∧
    Model.main natOps classes0 "in" "out" (fun _ => cap1) model2 ["clip.mp4", "next.avi"] =
      .error (.keyError (pyInt 7)) :=
  have h := unmapped_class_id_aborts_batch natOps classes0 "in" "out" (fun _ => cap1) model2
    cap1 (path_join "in" "clip.mp4") "clip.mp4" ["next.avi"] 3 [4] (5, 20, 30, 40) []
    (mkRat 42 100) [] 7 [] (.keyError (pyInt 7)) rfl rfl rfl rfl rfl rfl
  ⟨rfl, rfl, h, h.2 rfl h.1⟩

/-- C9: the bounding box is drawn with exactly the detector's
coordinates truncated to integers, with no constraint relating them to
the frame bounds -- only the label's vertical position is clamped. -/
theorem draw_detection_box_unclamped {Frame : Type} (ops : DrawOps Frame)
    (classes : Int → Option String) (frame : Frame)
    (qx1 qy1 qx2 qy2 conf cls_id : ℚ) (name : String)
    (hcls : classes (pyInt cls_id) = some name) :
    draw_detection ops classes frame ((qx1, qy1, qx2, qy2), conf, cls_id) =
      .ok (ops.putText
        (ops.rectangle frame (pyInt qx1, pyInt qy1) (pyInt qx2, pyInt qy2) (0, 255, 0) 2)
        (name ++ " " ++ format2f conf)
        (pyInt qx1, max (pyInt qy1 - 10) 0) FONT_HERSHEY_SIMPLEX (mkRat 1 2)
        (0, 255, 255) 2) := by
  unfold draw_detection
  dsimp only
  rw [hcls]

/-- Closed instance of C9: a box reaching outside the frame on two
sides (negative corner, large corner) is drawn with its own truncated
coordinates, unclamped. -/
theorem draw_detection_box_unclamped_witness :
    classes0 (pyInt 1) = some "car" ∧
    draw_detection natOps classes0 (5 : Nat)
        ((mkRat (-57) 10, mkRat (-203) 10, mkRat 7009 10, mkRat 5002 10), mkRat 42 100, 1) =
      .ok (natOps.putText
        (natOps.rectangle 5 (pyInt (mkRat (-57) 10), pyInt (mkRat (-203) 10))
          (pyInt (mkRat 7009 10), pyInt (mkRat 5002 10)) (0, 255, 0) 2)
        ("car" ++ " " ++ format2f (mkRat 42 100))
        (pyInt (mkRat (-57) 10), max (pyInt (mkRat (-203) 10) - 10) 0) FONT_HERSHEY_SIMPLEX
        (mkRat 1 2) (0, 255, 255) 2) ∧
    pyInt (mkRat (-57) 10) = -5 ∧ pyInt (mkRat (-203) 10) = -20 :=
  ⟨rfl,
    draw_detection_box_unclamped natOps classes0 5 (mkRat (-57) 10) (mkRat (-203) 10)
      (mkRat 7009 10) (mkRat 5002 10) (mkRat 42 100) 1 "car" rfl,
    rfl, rfl⟩

/-- Helper: `takeWhile` over a block of satisfying elements followed
by a failing element returns exactly the block. -/
theorem takeWhile_through_block {α : Type} (p : α → Bool) (y : α) (hy : p y = false) :
    ∀ (xs ys : List α), (∀ x ∈ xs, p x = true) →
      (xs ++ y :: ys).takeWhile p = xs := by
  intro xs
  induction xs with
  | nil =>
    intro ys _
    simp [List.takeWhile_cons, hy]
  | cons a as ih =>
    intro ys hall
    have ha : p a = true := hall a (List.mem_cons_self a as)
    simp [List.takeWhile_cons, ha,
      ih ys (fun x hx => hall x (List.mem_cons_of_mem a hx))]

/-- Helper: when the extension part is dot-free and the stem part has
at least one non-dot character, `stemChars` strips exactly the final
dot and extension. -/
theorem stemChars_strip (st e : List Char) (he : ∀ c ∈ e, c ≠ '.')
    (hst : ∃ c ∈ st, c ≠ '.') :
    stemChars (st ++ '.' :: e) = st := by
  unfold stemChars
  dsimp only
  have hrev : (st ++ '.' :: e).reverse = e.reverse ++ '.' :: st.reverse := by
    simp
  have htw : ((st ++ '.' :: e).reverse.takeWhile (fun c => c ≠ '.')) = e.reverse := by
    rw [hrev]
    exact takeWhile_through_block _ '.' (by simp) e.reverse st.reverse
      (fun c hc => by simpa using he c (List.mem_reverse.mp hc))
  rw [htw]
  have hlen : e.reverse.length ≠ (st ++ '.' :: e).length := by
    simp only [List.length_reverse, List.length_append, List.length_cons]
    omega
  rw [if_neg hlen]
  have htake : (st ++ '.' :: e).length - e.reverse.length - 1 = st.length := by
    simp only [List.length_reverse, List.length_append, List.length_cons]
    omega
  rw [htake]
  have htl : (st ++ '.' :: e).take st.length = st := List.take_left st ('.' :: e)
  rw [htl]
  obtain ⟨c, hc, hcne⟩ := hst
  have hall : st.all (fun c => c = '.') = false := by
    cases hb : st.all (fun c => c = '.') with
    | false => rfl
    | true =>
      have := List.all_eq_true.mp hb c hc
      exact absurd (by simpa using this) hcne
  rw [hall]
  simp

/-- Helper: `splitext_stem` on `stem ++ "." ++ ext` recovers the stem
when the extension is dot-free and the stem is not all dots. -/
theorem splitext_stem_strip (st e : String) (he : ∀ c ∈ e.data, c ≠ '.')
    (hst : ∃ c ∈ st.data, c ≠ '.') :
    splitext_stem (st ++ "." ++ e) = st := by
  unfold splitext_stem
  have hdata : (st ++ "." ++ e).data = st.data ++ '.' :: e.data := by
    simp [String.append]
  rw [hdata, stemChars_strip st.data e.data he hst]

/-- One-frame capture holding frame 100, for the overwrite scenario. -/
def capA : VideoCapture Nat :=
  { isOpened := true, propFps := 10, propWidth := 640, propHeight := 480,
    propFrameCount := 1, frames := [100] }

/-- One-frame capture holding frame 200, for the overwrite scenario. -/
def capB : VideoCapture Nat :=
  { isOpened := true, propFps := 10, propWidth := 640, propHeight := 480,
    propFrameCount := 1, frames := [200] }

/-- Filesystem in which `clip.mp4` and `clip.avi` open to distinct
captures. -/
def fsysAB : String → VideoCapture Nat :=
  fun p => if p = "in/clip.avi" then capB else capA

/-- C10: the output path depends only on the output directory and the
input filename's stem, not its extension; two batch inputs whose
names differ only in their extension are written to the identical
path, and the later-processed one overwrites the earlier output. -/
theorem output_path_extension_independent (output_dir st e1 e2 : String)
    (he1 : ∀ c ∈ e1.data, c ≠ '.') (he2 : ∀ c ∈ e2.data, c ≠ '.')
    (hst : ∃ c ∈ st.data, c ≠ '.') :
    path_join output_dir (splitext_stem (st ++ "." ++ e1) ++ "_processed.mp4") =
      path_join output_dir (splitext_stem (st ++ "." ++ e2) ++ "_processed.mp4") ∧
    Model.main natOps classes0 "in" "out" fsysAB model0 ["clip.mp4", "clip.avi"] =
      .ok ([("out/clip_processed.mp4", [100]), ("out/clip_processed.mp4", [200])],
        ["clip.mp4", "clip.avi"]) ∧
    lastWrite [("out/clip_processed.mp4", [100]), ("out/clip_processed.mp4", [200])]
      "out/clip_processed.mp4" = some [200] := by
  refine ⟨?_, rfl, rfl⟩
  rw [splitext_stem_strip st e1 he1 hst, splitext_stem_strip st e2 he2 hst]

/-- Closed instance of C10: "clip.mp4" and "clip.avi" map to the same
"out/clip_processed.mp4", and the batch's later write wins. -/
theorem output_path_extension_independent_witness :
    (∀ c ∈ ("mp4" : String).data, c ≠ '.') ∧ (∀ c ∈ ("avi" : String).data, c ≠ '.') ∧
    (∃ c ∈ ("clip" : String).data, c ≠ '.') ∧
    (path_join "out" (splitext_stem ("clip" ++ "." ++ "mp4") ++ "_processed.mp4") =
      path_join "out" (splitext_stem ("clip" ++ "." ++ "avi") ++ "_processed.mp4") ∧
    Model.main natOps classes0 "in" "out" fsysAB model0 ["clip.mp4", "clip.avi"] =
      .ok ([("out/clip_processed.mp4", [100]), ("out/clip_processed.mp4", [200])],
        ["clip.mp4", "clip.avi"]) ∧
    lastWrite [("out/clip_processed.mp4", [100]), ("out/clip_processed.mp4", [200])]
      "out/clip_processed.mp4" = some [200]) :=
  ⟨by decide, by decide, by decide,
    output_path_extension_independent "out" "clip" "mp4" "avi"
      (by decide) (by decide) (by decide)⟩
